import Mathlib

/-
Verification of the Zombie-ZPL tokenizer and parser
(src/zombie-zpl/backend/src/parser/parser.ts, which contains both the
ZplParser class and the ZplTokenizer class, plus
src/zombie-zpl/shared/ast-types.ts).

The TypeScript source is shallowly embedded below:
  - JS strings are Lean String / List Char;
  - JS numbers used here are integers (parseInt with radix 10), modelled as Int;
  - the tokenizer's character scan is modelled by structural recursion on the
    list of remaining characters, carrying the current line/column/offset in an
    explicit state record (the TS class fields);
  - every unbounded while-loop whose body consumes input is modelled with an
    explicit fuel parameter that is instantiated, at the call sites the TS
    code corresponds to, with (remaining input length + 1), which is
    sufficient because every iteration consumes at least one element
    (proved for the parser loop as the strict-progress theorem for claim C1);
  - thrown/caught parse exceptions are modelled with Except.

Names follow the TS methods: tokenizeCommand, tokenizeParameters (fueled as
tokenizeParametersF), tokenize, parseCommand, parseFieldData, parse, etc.
-/

namespace ZombieZpl

/-- SourcePosition from ast-types.ts: line/column 1-indexed, offset 0-indexed. -/
structure SourcePosition where
  line : Nat
  column : Nat
  offset : Nat
deriving DecidableEq, Repr

/-- TokenType enum from the tokenizer. -/
inductive TokenType where
  | COMMAND_START
  | COMMAND_CODE
  | PARAMETER
  | STRING_CONTENT
  | COMMENT
  | NEWLINE
  | EOF
deriving DecidableEq, Repr

/-- Token record from the tokenizer. -/
structure Token where
  type : TokenType
  value : String
  position : SourcePosition
  raw : String
deriving DecidableEq, Repr

/-- ParseError from ast-types.ts; severity is the literal string the TS code
stores ("ERROR"), code distinguishes tokenizer and parser errors. -/
structure ParseError where
  message : String
  position : SourcePosition
  severity : String
  code : String
deriving DecidableEq, Repr

/-- ParseWarning from ast-types.ts. -/
structure ParseWarning where
  message : String
  position : SourcePosition
  suggestion : Option String
deriving DecidableEq, Repr

/-- The mutable fields of the ZplTokenizer class (position/line/column and the
token and error accumulators). -/
structure TokState where
  line : Nat
  column : Nat
  offset : Nat
  tokens : List Token
  errors : List ParseError
deriving DecidableEq, Repr

/-- ZplTokenizer.getCurrentPosition. -/
def tokPos (st : TokState) : SourcePosition :=
  ⟨st.line, st.column, st.offset⟩

/-- ZplTokenizer.advance(1): position++ and column++. -/
def tokAdvance (st : TokState) : TokState :=
  { st with offset := st.offset + 1, column := st.column + 1 }

/-- this.tokens.push(t). -/
def pushTok (st : TokState) (t : Token) : TokState :=
  { st with tokens := st.tokens ++ [t] }

/-- ZplTokenizer.addError: records a TOKENIZER_ERROR at the current position. -/
def pushTokErr (st : TokState) (msg : String) : TokState :=
  { st with errors := st.errors ++ [⟨msg, tokPos st, "ERROR", "TOKENIZER_ERROR"⟩] }

/-- ZplTokenizer.isCommandChar: the regex [A-Z0-9@].test(char). -/
def isCommandChar (c : Char) : Bool :=
  c.isUpper || c.isDigit || c == '@'

/-- ZplTokenizer.isWhitespace: the regex [\s\t\r].test(char), restricted to the
ASCII part of \s (space, tab, newline, carriage return, vertical tab, form
feed); the non-ASCII Unicode spaces matched by \s play no role in any claim. -/
def isWhitespace (c : Char) : Bool :=
  c == ' ' || c == '\t' || c == '\n' || c == '\r' || c == '\x0b' || c == '\x0c'

/-- ZplTokenizer.peek(offset): source.substring(position, position + offset),
expressed on the list of characters remaining from the current position.
Note the TS substring starts AT the current position, so peek(1) returns the
current character, not the next one. -/
def peekStr (l : List Char) (off : Nat) : String :=
  ⟨l.take off⟩

/-- The while-loop inside ZplTokenizer.tokenizeCommand that accumulates the
maximal run of command-code characters.  Returns the accumulated code, the
remaining characters and the updated state. -/
def scanCommandCode : List Char → TokState → String × List Char × TokState
  | [], st => ("", [], st)
  | c :: rest, st =>
    if isCommandChar c then
      let r := scanCommandCode rest (tokAdvance st)
      (⟨c :: r.1.data⟩, r.2.1, r.2.2)
    else
      ("", c :: rest, st)

/-- The inner while-loop of ZplTokenizer.tokenizeParameters that accumulates
one parameter: stops at a comma, a command marker, a newline, whitespace, or
the end of input. -/
def scanParam : List Char → TokState → String × List Char × TokState
  | [], st => ("", [], st)
  | c :: rest, st =>
    if c = ',' ∨ c = '^' ∨ c = '\n' ∨ isWhitespace c then
      ("", c :: rest, st)
    else
      let r := scanParam rest (tokAdvance st)
      (⟨c :: r.1.data⟩, r.2.1, r.2.2)

/-- ZplTokenizer.tokenizeParameters (fueled).  On entry the first parameter
branch captures the start position, scans one maximal parameter run (which is
never empty: its first character is the dispatching character itself, exactly
as in the TS inner loop) and pushes a PARAMETER token. -/
def tokenizeParametersF : Nat → List Char → TokState → List Char × TokState
  | 0, l, st => (l, st)
  | _ + 1, [], st => ([], st)
  | fuel + 1, c :: rest, st =>
    if c = '^' ∨ c = '\n' then
      (c :: rest, st)
    else if c = ',' then
      tokenizeParametersF fuel rest (tokAdvance st)
    else if isWhitespace c then
      tokenizeParametersF fuel rest (tokAdvance st)
    else
      let paramStart := tokPos st
      let r := scanParam rest (tokAdvance st)
      let p : String := ⟨c :: r.1.data⟩
      tokenizeParametersF fuel r.2.1
        (pushTok r.2.2 ⟨TokenType.PARAMETER, p, paramStart, p⟩)

/-- ZplTokenizer.tokenizeCommand.  The argument list holds the characters
after the marker character; the state still points at the marker.  A marker
with an empty command-code run emits no tokens, only a lexical error. -/
def tokenizeCommand (l : List Char) (st : TokState) : List Char × TokState :=
  let startPos := tokPos st
  let st1 := tokAdvance st
  let r := scanCommandCode l st1
  if r.1 ≠ "" then
    let st2 := pushTok r.2.2 ⟨TokenType.COMMAND_START, "^", startPos, "^"⟩
    let st3 := pushTok st2
      ⟨TokenType.COMMAND_CODE, r.1, ⟨startPos.line, startPos.column + 1, startPos.offset⟩, r.1⟩
    tokenizeParametersF (r.2.1.length + 1) r.2.1 st3
  else
    (r.2.1, pushTokErr r.2.2 "Empty command after ^")

/-- ZplTokenizer.tokenizeNewline: pushes the token, then line++, column = 1,
position++ (the column is not incremented on this path). -/
def tokenizeNewline (st : TokState) : TokState :=
  let st1 := pushTok st ⟨TokenType.NEWLINE, "\n", tokPos st, "\n"⟩
  { st1 with line := st1.line + 1, column := 1, offset := st1.offset + 1 }

/-- The while-loop of ZplTokenizer.tokenizeLineComment, accumulating until a
newline or the end of input. -/
def scanLineComment : List Char → TokState → String × List Char × TokState
  | [], st => ("", [], st)
  | c :: rest, st =>
    if c = '\n' then
      ("", c :: rest, st)
    else
      let r := scanLineComment rest (tokAdvance st)
      (⟨c :: r.1.data⟩, r.2.1, r.2.2)

/-- ZplTokenizer.tokenizeLineComment: the argument list starts at the slash
that triggered the comment branch; the comment text literal starts as "//"
regardless of what the two skipped characters actually were, exactly as in the
TS code. -/
def tokenizeLineComment (l : List Char) (st : TokState) : List Char × TokState :=
  let startPos := tokPos st
  let st1 := tokAdvance (tokAdvance st)
  let r := scanLineComment (l.drop 2) st1
  let comment := "//" ++ r.1
  (r.2.1, pushTok r.2.2 ⟨TokenType.COMMENT, comment, startPos, comment⟩)

/-- The while-loop of ZplTokenizer.tokenizeBlockComment: runs while at least
two characters remain (position < length - 1); on finding the two-character
terminator it consumes it and stops, otherwise it consumes one character. -/
def scanBlockComment : List Char → TokState → String × List Char × TokState
  | c1 :: c2 :: rest, st =>
    if c1 = '*' ∧ c2 = '/' then
      ("*/", rest, tokAdvance (tokAdvance st))
    else
      let r := scanBlockComment (c2 :: rest) (tokAdvance st)
      (⟨c1 :: r.1.data⟩, r.2.1, r.2.2)
  | l, st => ("", l, st)

/-- ZplTokenizer.tokenizeBlockComment. -/
def tokenizeBlockComment (l : List Char) (st : TokState) : List Char × TokState :=
  let startPos := tokPos st
  let st1 := tokAdvance (tokAdvance st)
  let r := scanBlockComment (l.drop 2) st1
  let comment := "/*" ++ r.1
  (r.2.1, pushTok r.2.2 ⟨TokenType.COMMENT, comment, startPos, comment⟩)

/-- The main scan loop of ZplTokenizer.tokenize (fueled; every iteration
consumes at least one character, so the wrapper's fuel of length + 1 always
suffices).  The comment dispatch conditions are embedded exactly as written in
the TS source, including the fact that peek(1) inspects the current character
rather than the next one. -/
def tokLoopF : Nat → List Char → TokState → TokState
  | 0, _, st => st
  | _ + 1, [], st => st
  | fuel + 1, c :: rest, st =>
    if c = '^' then
      let r := tokenizeCommand rest st
      tokLoopF fuel r.1 r.2
    else if c = '\n' then
      tokLoopF fuel rest (tokenizeNewline st)
    else if c = '/' ∧ peekStr (c :: rest) 1 = "/" then
      let r := tokenizeLineComment (c :: rest) st
      tokLoopF fuel r.1 r.2
    else if c = '/' ∧ peekStr (c :: rest) 1 = "*" then
      let r := tokenizeBlockComment (c :: rest) st
      tokLoopF fuel r.1 r.2
    else if isWhitespace c then
      tokLoopF fuel rest (tokAdvance st)
    else
      tokLoopF fuel rest (tokAdvance (pushTokErr st ("Unexpected character: " ++ ⟨[c]⟩)))

/-- ZplTokenizer.tokenize: runs the scan loop from a fresh state and appends
the single end-of-stream token at the final position. -/
def tokenize (source : String) : List Token × List ParseError :=
  let st0 : TokState := ⟨1, 1, 0, [], []⟩
  let st := tokLoopF (source.data.length + 1) source.data st0
  (st.tokens ++ [⟨TokenType.EOF, "EOF", tokPos st, ""⟩], st.errors)

/-- The fallback token List.getD returns when the parser's cursor is out of
range; unreachable on the streams tokenize produces (they end in EOF and the
cursor never moves past it), but it makes the access functions total. -/
def eofFallbackToken : Token :=
  ⟨TokenType.EOF, "EOF", ⟨0, 0, 0⟩, ""⟩

/-- The mutable fields of the ZplParser class that change while parsing: the
cursor and the two diagnostic accumulators.  The (immutable during one parse)
token list is passed separately to every function. -/
structure ParserState where
  current : Nat
  errors : List ParseError
  warnings : List ParseWarning
deriving DecidableEq, Repr

/-- ZplParser.peek: this.tokens[this.current]. -/
def peekT (toks : List Token) (st : ParserState) : Token :=
  toks.getD st.current eofFallbackToken

/-- ZplParser.isAtEnd. -/
def isAtEndP (toks : List Token) (st : ParserState) : Bool :=
  (peekT toks st).type = TokenType.EOF

/-- ZplParser.previous: this.tokens[this.current - 1]. -/
def prevT (toks : List Token) (st : ParserState) : Token :=
  toks.getD (st.current - 1) eofFallbackToken

/-- ZplParser.advance: bumps the cursor unless at the end, then returns
previous(). -/
def advanceT (toks : List Token) (st : ParserState) : Token × ParserState :=
  let st1 := if isAtEndP toks st then st else { st with current := st.current + 1 }
  (prevT toks st1, st1)

/-- ZplParser.check. -/
def checkT (toks : List Token) (st : ParserState) (ty : TokenType) : Bool :=
  if isAtEndP toks st then false else (peekT toks st).type = ty

/-- ZplParser.peekNext: this.tokens[this.current + 1], null when out of
range. -/
def peekNextT (toks : List Token) (st : ParserState) : Option Token :=
  toks.get? (st.current + 1)

/-- ZplParser.addError: records a PARSER_ERROR diagnostic. -/
def addErrorP (st : ParserState) (msg : String) (pos : SourcePosition) : ParserState :=
  { st with errors := st.errors ++ [⟨msg, pos, "ERROR", "PARSER_ERROR"⟩] }

/-- ZplParser.addWarning. -/
def addWarnP (st : ParserState) (msg : String) (pos : SourcePosition) : ParserState :=
  { st with warnings := st.warnings ++ [⟨msg, pos, none⟩] }

/-- The while-loop of ZplParser.parseParameters (fueled: each iteration bumps
the cursor, so tokens.length + 1 fuel always suffices).  Collects the values
of the PARAMETER tokens at the cursor, in order. -/
def parseParametersF : Nat → List Token → ParserState → List String × ParserState
  | 0, _, st => ([], st)
  | fuel + 1, toks, st =>
    if checkT toks st TokenType.PARAMETER then
      let a := advanceT toks st
      let r := parseParametersF fuel toks a.2
      (a.1.value :: r.1, r.2)
    else
      ([], st)

/-- ZplParser.parseParameters. -/
def parseParameters (toks : List Token) (st : ParserState) : List String × ParserState :=
  parseParametersF (toks.length + 1) toks st

/-- The numeric value of a decimal digit run (most significant first). -/
def parseDigits (l : List Char) : Nat :=
  l.foldl (fun acc c => acc * 10 + (c.toNat - '0'.toNat)) 0

/-- JS parseInt(value, 10): skips leading whitespace, reads an optional sign
and then the maximal leading run of decimal digits; none when that run is
empty (NaN).  Modelled with exact integers (all values in this code base are
far below the double-precision bound). -/
def parseIntJS (s : String) : Option Int :=
  let l := s.data.dropWhile isWhitespace
  let sr : Int × List Char :=
    match l with
    | '-' :: rest => (-1, rest)
    | '+' :: rest => (1, rest)
    | _ => (1, l)
  let digits := sr.2.takeWhile Char.isDigit
  if digits.isEmpty then none else some (sr.1 * (parseDigits digits : Int))

/-- ZplParser.parseNumberParameter: parseInt with a default for absent
(undefined) or non-numeric input. -/
def parseNumberParameter (v : Option String) (d : Int) : Int :=
  match v with
  | none => d
  | some s => (parseIntJS s).getD d

/-- ZplParser.parseBooleanParameter. -/
def parseBooleanParameter (v : Option String) (d : Bool) : Bool :=
  if v = some "Y" then true else if v = some "N" then false else d

/-- ZplParser.parseOrientation. -/
def parseOrientation (v : Option String) : String :=
  match v with
  | some s => if s = "N" ∨ s = "R" ∨ s = "I" ∨ s = "B" then s else "N"
  | none => "N"

/-- The command-node union from ast-types.ts, one constructor per interface.
The TS base-interface field names type/command/raw/position/parameters map to
the constructor tag, the command argument (where not fixed by the tag), raw,
position and parameters.  FIELD_DATA stores parameters as the record
containing exactly its content field and LABEL_END stores the empty record, so
neither carries separate information and they are omitted there.  The stub
constructor is the empty object literal that parseFieldReverse,
parseChangeFont and parseGraphicField return ({} cast to the command type):
a node with none of the declared fields present. -/
inductive AnyZplCommand where
  | labelStart (raw : String) (position : SourcePosition) (parameters : List String)
  | labelEnd (raw : String) (position : SourcePosition)
  | labelLength (raw : String) (position : SourcePosition) (length : Int)
      (parameters : List String)
  | labelHome (raw : String) (position : SourcePosition) (x y : Int)
      (parameters : List String)
  | fieldOrigin (raw : String) (position : SourcePosition) (x y : Int)
      (parameters : List String)
  | graphicBox (raw : String) (position : SourcePosition)
      (width height thickness : Int) (color : String) (rounding : Option Int)
      (parameters : List String)
  | fieldData (raw : String) (position : SourcePosition) (content : String)
      (stopCommand : Bool)
  | fontSelection (raw : String) (position : SourcePosition) (font : String)
      (orientation : String) (height : Int) (width : Option Int)
      (parameters : List String)
  | barcode (command : String) (raw : String) (position : SourcePosition)
      (orientation : String) (height : Int)
      (printInterpretationLine printAboveCode : Bool) (mode : Option String)
      (data : String) (parameters : List String)
  | generic (command : String) (raw : String) (position : SourcePosition)
      (parameters : List String)
  | stub
deriving DecidableEq, Repr

/-- ZplParser.parseLabelStart. -/
def parseLabelStart (toks : List Token) (startTok cTok : Token) (st : ParserState) :
    AnyZplCommand × ParserState :=
  let r := parseParameters toks st
  (.labelStart ("^" ++ cTok.value) startTok.position r.1, r.2)

/-- ZplParser.parseLabelEnd (does not consume parameters). -/
def parseLabelEnd (_toks : List Token) (startTok cTok : Token) (st : ParserState) :
    AnyZplCommand × ParserState :=
  (.labelEnd ("^" ++ cTok.value) startTok.position, st)

/-- ZplParser.parseLabelLength. -/
def parseLabelLength (toks : List Token) (startTok cTok : Token) (st : ParserState) :
    AnyZplCommand × ParserState :=
  let r := parseParameters toks st
  let len := parseNumberParameter (r.1.get? 0) 100
  (.labelLength ("^" ++ cTok.value) startTok.position len r.1, r.2)

/-- ZplParser.parseLabelHome: fewer than two parameters records a structural
error; both coordinates are filled by parseNumberParameter with default 0. -/
def parseLabelHome (toks : List Token) (startTok cTok : Token) (st : ParserState) :
    AnyZplCommand × ParserState :=
  let r := parseParameters toks st
  let st1 :=
    if r.1.length < 2 then
      addErrorP r.2 "LH command requires x and y parameters" startTok.position
    else r.2
  let x := parseNumberParameter (r.1.get? 0) 0
  let y := parseNumberParameter (r.1.get? 1) 0
  (.labelHome ("^" ++ cTok.value) startTok.position x y r.1, st1)

/-- ZplParser.parseFieldOrigin: same shape as parseLabelHome. -/
def parseFieldOrigin (toks : List Token) (startTok cTok : Token) (st : ParserState) :
    AnyZplCommand × ParserState :=
  let r := parseParameters toks st
  let st1 :=
    if r.1.length < 2 then
      addErrorP r.2 "FO command requires x and y parameters" startTok.position
    else r.2
  let x := parseNumberParameter (r.1.get? 0) 0
  let y := parseNumberParameter (r.1.get? 1) 0
  (.fieldOrigin ("^" ++ cTok.value) startTok.position x y r.1, st1)

/-- The lookahead shared by parseFieldData and parseBarcode: when the cursor
rests on a COMMAND_START token whose following token is a COMMAND_CODE with
the given value, both tokens are consumed and true is returned; otherwise the
state is untouched. -/
def cmdLookahead (toks : List Token) (code : String) (st : ParserState) :
    Bool × ParserState :=
  match peekNextT toks st with
  | some nextTok =>
    if checkT toks st TokenType.COMMAND_START ∧
        nextTok.type = TokenType.COMMAND_CODE ∧ nextTok.value = code then
      (true, (advanceT toks (advanceT toks st).2).2)
    else (false, st)
  | none => (false, st)

/-- ZplParser.parseFieldData: optional PARAMETER content, then lookahead for
an immediately following FS command pair, which is consumed (marker and code
tokens) and never becomes a node of its own. -/
def parseFieldData (toks : List Token) (startTok cTok : Token) (st : ParserState) :
    AnyZplCommand × ParserState :=
  let r1 :=
    if checkT toks st TokenType.PARAMETER then
      let a := advanceT toks st
      (a.1.value, a.2)
    else ("", st)
  let r2 := cmdLookahead toks "FS" r1.2
  (.fieldData ("^" ++ cTok.value) startTok.position r1.1 r2.1, r2.2)

/-- ZplParser.parseBarcode: positional parameters with defaults, then the same
lookahead as parseFieldData for an immediately following FD whose parameter
becomes the barcode data. -/
def parseBarcode (toks : List Token) (startTok cTok : Token) (st : ParserState) :
    AnyZplCommand × ParserState :=
  let pr := parseParameters toks st
  let ps := pr.1
  let st1 := pr.2
  let orient := parseOrientation (ps.get? 0)
  let height := parseNumberParameter (ps.get? 1) 10
  let pil := parseBooleanParameter (ps.get? 2) true
  let pac := parseBooleanParameter (ps.get? 3) false
  let mode := ps.get? 4
  let la := cmdLookahead toks "FD" st1
  let rd :=
    if la.1 then
      if checkT toks la.2 TokenType.PARAMETER then
        let a := advanceT toks la.2
        (a.1.value, a.2)
      else ("", la.2)
    else ("", la.2)
  (.barcode cTok.value ("^" ++ cTok.value) startTok.position orient height pil pac
      mode rd.1 ps, rd.2)

/-- ZplParser.parseGraphicBox. -/
def parseGraphicBox (toks : List Token) (startTok cTok : Token) (st : ParserState) :
    AnyZplCommand × ParserState :=
  let pr := parseParameters toks st
  let ps := pr.1
  let width := parseNumberParameter (ps.get? 0) 1
  let height := parseNumberParameter (ps.get? 1) 1
  let thickness := parseNumberParameter (ps.get? 2) 1
  let color := if ps.get? 3 = some "W" then "W" else "B"
  let rounding :=
    match ps.get? 4 with
    | some s => if s = "" then none else some (parseNumberParameter (some s) 0)
    | none => none
  (.graphicBox ("^" ++ cTok.value) startTok.position width height thickness color
      rounding ps, pr.2)

/-- ZplParser.parseFontSelection. -/
def parseFontSelection (toks : List Token) (startTok cTok : Token) (st : ParserState) :
    AnyZplCommand × ParserState :=
  let pr := parseParameters toks st
  let ps := pr.1
  let font :=
    match ps.get? 0 with
    | some s => if s = "" then "0" else s
    | none => "0"
  let orient := parseOrientation (ps.get? 1)
  let height := parseNumberParameter (ps.get? 2) 10
  let width :=
    match ps.get? 3 with
    | some s => if s = "" then none else some (parseNumberParameter (some s) height)
    | none => none
  (.fontSelection ("^" ++ cTok.value) startTok.position font orient height width ps,
    pr.2)

/-- ZplParser.parseGenericCommand. -/
def parseGenericCommand (toks : List Token) (startTok cTok : Token) (st : ParserState) :
    AnyZplCommand × ParserState :=
  let r := parseParameters toks st
  (.generic cTok.value ("^" ++ cTok.value) startTok.position r.1, r.2)

/-- ZplParser.parseFieldReverse: the stub returning {} as FieldReverseCommand;
no tokens consumed, no diagnostics. -/
def parseFieldReverse (_toks : List Token) (_startTok _cTok : Token)
    (st : ParserState) : AnyZplCommand × ParserState :=
  (.stub, st)

/-- ZplParser.parseChangeFont: stub returning {}. -/
def parseChangeFont (_toks : List Token) (_startTok _cTok : Token)
    (st : ParserState) : AnyZplCommand × ParserState :=
  (.stub, st)

/-- ZplParser.parseGraphicField: stub returning {}. -/
def parseGraphicField (_toks : List Token) (_startTok _cTok : Token)
    (st : ParserState) : AnyZplCommand × ParserState :=
  (.stub, st)

/-- The switch statement of ZplParser.parseCommand dispatching on the
command-code token's value; the default case records the unsupported-command
warning and falls back to parseGenericCommand. -/
def dispatchCmd (toks : List Token) (startTok cTok : Token) (st : ParserState) :
    AnyZplCommand × ParserState :=
  match cTok.value with
  | "XA" => parseLabelStart toks startTok cTok st
  | "XZ" => parseLabelEnd toks startTok cTok st
  | "LL" => parseLabelLength toks startTok cTok st
  | "LH" => parseLabelHome toks startTok cTok st
  | "FO" => parseFieldOrigin toks startTok cTok st
  | "FR" => parseFieldReverse toks startTok cTok st
  | "GB" => parseGraphicBox toks startTok cTok st
  | "FD" => parseFieldData toks startTok cTok st
  | "A" => parseFontSelection toks startTok cTok st
  | "CF" => parseChangeFont toks startTok cTok st
  | "BC" | "B3" | "BN" => parseBarcode toks startTok cTok st
  | "GF" => parseGraphicField toks startTok cTok st
  | _ =>
    parseGenericCommand toks startTok cTok
      (addWarnP st ("Unsupported command: " ++ cTok.value) cTok.position)

/-- ZplParser.parseCommand: a node begins only at a COMMAND_START token; the
consume of the following COMMAND_CODE token is the single throw site
(modelled as Except.error; ZplParser.consume records the error before
throwing).  Any other token is skipped with no node (the null return). -/
def parseCommand (toks : List Token) (st : ParserState) :
    Except Unit (Option AnyZplCommand) × ParserState :=
  if checkT toks st TokenType.COMMAND_START then
    let m := advanceT toks st
    if checkT toks m.2 TokenType.COMMAND_CODE then
      let c := advanceT toks m.2
      let r := dispatchCmd toks m.1 c.1 c.2
      (Except.ok (some r.1), r.2)
    else
      (Except.error (), addErrorP m.2 "Expected command code after ^" (peekT toks m.2).position)
  else
    (Except.ok none, (advanceT toks st).2)

/-- The while-loop of ZplParser.synchronize (fueled): after the initial
advance, keep advancing until the end, until the previous token was a newline,
or until the cursor rests on a command marker. -/
def syncLoopF : Nat → List Token → ParserState → ParserState
  | 0, _, st => st
  | fuel + 1, toks, st =>
    if isAtEndP toks st then st
    else if (prevT toks st).type = TokenType.NEWLINE then st
    else if checkT toks st TokenType.COMMAND_START then st
    else syncLoopF fuel toks (advanceT toks st).2

/-- ZplParser.synchronize. -/
def synchronize (toks : List Token) (st : ParserState) : ParserState :=
  syncLoopF (toks.length + 1) toks (advanceT toks st).2

/-- One iteration of the try/catch parse loop in ZplParser.parse: a thrown
consume failure is caught and answered with synchronize, producing no node. -/
def parseIter (toks : List Token) (st : ParserState) :
    Option AnyZplCommand × ParserState :=
  match parseCommand toks st with
  | (Except.ok c, st1) => (c, st1)
  | (Except.error _, st1) => (none, synchronize toks st1)

/-- The while-loop of ZplParser.parse (fueled; the strict-progress theorem for
claim C1 shows fuel tokens.length + 1 always reaches the end-of-stream
token). -/
def parseLoopF : Nat → List Token → ParserState → List AnyZplCommand →
    List AnyZplCommand × ParserState
  | 0, _, st, acc => (acc, st)
  | fuel + 1, toks, st, acc =>
    if isAtEndP toks st then (acc, st)
    else
      let r := parseIter toks st
      parseLoopF fuel toks r.2
        (match r.1 with
         | some c => acc ++ [c]
         | none => acc)

/-- The x field of a FIELD_ORIGIN node, used by calculateLabelWidth's
filter. -/
def cmdFieldOriginX : AnyZplCommand → Option Int
  | .fieldOrigin _ _ x _ _ => some x
  | _ => none

/-- ZplParser.calculateLabelWidth: max x over FIELD_ORIGIN nodes plus 100,
undefined when there are none. -/
def calculateLabelWidth (cmds : List AnyZplCommand) : Option Int :=
  match cmds.filterMap cmdFieldOriginX with
  | [] => none
  | x :: rest => some (rest.foldl max x + 100)

/-- The length field of a LABEL_LENGTH node. -/
def cmdLabelLengthVal : AnyZplCommand → Option Int
  | .labelLength _ _ len _ => some len
  | _ => none

/-- ZplParser.calculateLabelLength: the length of the first LABEL_LENGTH node,
undefined when there is none. -/
def calculateLabelLength (cmds : List AnyZplCommand) : Option Int :=
  (cmds.filterMap cmdLabelLengthVal).head?

/-- ZplDocument from ast-types.ts (metadata fields inlined). -/
structure ZplDocument where
  commands : List AnyZplCommand
  source : String
  errors : List ParseError
  warnings : List ParseWarning
  labelWidth : Option Int
  labelLength : Option Int
deriving DecidableEq, Repr

/-- The instance fields of the ZplParser class as they persist between calls
to parse. -/
structure ZplParserInst where
  tokens : List Token
  current : Nat
  errors : List ParseError
  warnings : List ParseWarning
deriving DecidableEq, Repr

/-- ZplParser.parse as a method on the instance state: it overwrites
this.tokens and this.errors with the tokenizer's result, resets this.current
to 0 and this.warnings to [], runs the command loop and assembles the
Document; the returned instance holds the fields as the call leaves them. -/
def parseInst (_self : ZplParserInst) (source : String) :
    ZplDocument × ZplParserInst :=
  let tr := tokenize source
  let st0 : ParserState := ⟨0, tr.2, []⟩
  let r := parseLoopF (tr.1.length + 1) tr.1 st0 []
  (⟨r.1, source, r.2.errors, r.2.warnings, calculateLabelWidth r.1,
      calculateLabelLength r.1⟩,
    ⟨tr.1, r.2.current, r.2.errors, r.2.warnings⟩)

/-- parser.parse(source) on a freshly constructed ZplParser (the class field
initializers are the empty lists and cursor 0). -/
def parse (source : String) : ZplDocument :=
  (parseInst ⟨[], 0, [], []⟩ source).1

/-- Every COMMAND_START token in the list is immediately followed by a
COMMAND_CODE token, and the list does not end in a dangling COMMAND_START. -/
def csPaired : List Token → Prop
  | [] => True
  | [t] => t.type ≠ TokenType.COMMAND_START
  | t :: u :: rest =>
    (t.type = TokenType.COMMAND_START → u.type = TokenType.COMMAND_CODE) ∧
    csPaired (u :: rest)

/-- The shape of what one tokenizer step adds: the run from state st to state
st' appends the token block new, moves the offset forward, and new is
offset-monotone, bounded by the two offsets, free of end-of-stream tokens and
csPaired. -/
def TokChunk (st st' : TokState) (new : List Token) : Prop :=
  st'.tokens = st.tokens ++ new ∧
  st.offset ≤ st'.offset ∧
  List.Chain' (fun a b => a.position.offset ≤ b.position.offset) new ∧
  (∀ t ∈ new, st.offset ≤ t.position.offset ∧ t.position.offset ≤ st'.offset ∧
      t.type ≠ TokenType.EOF) ∧
  csPaired new

/-! Shared lemmas about the parser's cursor: every access helper moves the
cursor monotonically, and a full parseCommand step from a position short of
the end-of-stream token moves it strictly. -/

theorem isAtEndP_false_lt {toks : List Token} {st : ParserState}
    (h : isAtEndP toks st = false) : st.current < toks.length := by
  by_contra hge
  push_neg at hge
  have hnone : toks.get? st.current = none := List.get?_eq_none.mpr hge
  have : peekT toks st = eofFallbackToken := by
    unfold peekT List.getD
    rw [hnone]
    rfl
  unfold isAtEndP at h
  rw [this] at h
  simp [eofFallbackToken] at h

theorem advanceT_snd (toks : List Token) (st : ParserState) :
    (advanceT toks st).2 =
      if isAtEndP toks st then st else { st with current := st.current + 1 } := rfl

theorem advanceT_mono (toks : List Token) (st : ParserState) :
    st.current ≤ (advanceT toks st).2.current := by
  rw [advanceT_snd]
  split <;> simp

theorem advanceT_errors (toks : List Token) (st : ParserState) :
    (advanceT toks st).2.errors = st.errors := by
  rw [advanceT_snd]
  split <;> rfl

theorem advanceT_warnings (toks : List Token) (st : ParserState) :
    (advanceT toks st).2.warnings = st.warnings := by
  rw [advanceT_snd]
  split <;> rfl

theorem advanceT_current_of_not_end {toks : List Token} {st : ParserState}
    (h : isAtEndP toks st = false) :
    (advanceT toks st).2.current = st.current + 1 := by
  rw [advanceT_snd, h]
  rfl

theorem checkT_not_end {toks : List Token} {st : ParserState} {ty : TokenType}
    (h : checkT toks st ty = true) : isAtEndP toks st = false := by
  unfold checkT at h
  by_contra hne
  rw [eq_true_of_ne_false hne] at h
  simp at h

theorem parseParametersF_state (fuel : Nat) (toks : List Token) (st : ParserState) :
    st.current ≤ (parseParametersF fuel toks st).2.current ∧
    (parseParametersF fuel toks st).2.errors = st.errors ∧
    (parseParametersF fuel toks st).2.warnings = st.warnings := by
  induction fuel generalizing st with
  | zero => exact ⟨le_rfl, rfl, rfl⟩
  | succ fuel ih =>
    unfold parseParametersF
    split
    · dsimp only
      refine ⟨le_trans (advanceT_mono toks st) (ih _).1, ?_, ?_⟩
      · rw [(ih _).2.1, advanceT_errors]
      · rw [(ih _).2.2, advanceT_warnings]
    · exact ⟨le_rfl, rfl, rfl⟩

theorem parseParameters_state (toks : List Token) (st : ParserState) :
    st.current ≤ (parseParameters toks st).2.current ∧
    (parseParameters toks st).2.errors = st.errors ∧
    (parseParameters toks st).2.warnings = st.warnings :=
  parseParametersF_state _ toks st

theorem addErrorP_current (st : ParserState) (msg : String) (pos : SourcePosition) :
    (addErrorP st msg pos).current = st.current := rfl

theorem addWarnP_current (st : ParserState) (msg : String) (pos : SourcePosition) :
    (addWarnP st msg pos).current = st.current := rfl

theorem cmdLookahead_mono (toks : List Token) (code : String) (st : ParserState) :
    st.current ≤ (cmdLookahead toks code st).2.current := by
  unfold cmdLookahead
  split
  · split
    · exact le_trans (advanceT_mono toks st)
        (advanceT_mono toks (advanceT toks st).2)
    · exact le_rfl
  · exact le_rfl

theorem parseLabelStart_mono (toks : List Token) (a b : Token) (st : ParserState) :
    st.current ≤ (parseLabelStart toks a b st).2.current :=
  (parseParameters_state toks st).1

theorem parseLabelEnd_mono (toks : List Token) (a b : Token) (st : ParserState) :
    st.current ≤ (parseLabelEnd toks a b st).2.current := le_rfl

theorem parseLabelLength_mono (toks : List Token) (a b : Token) (st : ParserState) :
    st.current ≤ (parseLabelLength toks a b st).2.current :=
  (parseParameters_state toks st).1

theorem parseLabelHome_mono (toks : List Token) (a b : Token) (st : ParserState) :
    st.current ≤ (parseLabelHome toks a b st).2.current := by
  unfold parseLabelHome
  dsimp only
  split
  · rw [addErrorP_current]
    exact (parseParameters_state toks st).1
  · exact (parseParameters_state toks st).1

theorem parseFieldOrigin_mono (toks : List Token) (a b : Token) (st : ParserState) :
    st.current ≤ (parseFieldOrigin toks a b st).2.current := by
  unfold parseFieldOrigin
  dsimp only
  split
  · rw [addErrorP_current]
    exact (parseParameters_state toks st).1
  · exact (parseParameters_state toks st).1

theorem parseFieldData_mono (toks : List Token) (a b : Token) (st : ParserState) :
    st.current ≤ (parseFieldData toks a b st).2.current := by
  unfold parseFieldData
  dsimp only
  split
  · exact le_trans (advanceT_mono toks st) (cmdLookahead_mono toks "FS" _)
  · exact cmdLookahead_mono toks "FS" st

theorem parseBarcode_mono (toks : List Token) (a b : Token) (st : ParserState) :
    st.current ≤ (parseBarcode toks a b st).2.current := by
  unfold parseBarcode
  dsimp only
  have h1 : st.current ≤ (cmdLookahead toks "FD" (parseParameters toks st).2).2.current :=
    le_trans (parseParameters_state toks st).1 (cmdLookahead_mono toks "FD" _)
  split
  · split
    · exact le_trans h1 (advanceT_mono toks _)
    · exact h1
  · exact h1

theorem parseGraphicBox_mono (toks : List Token) (a b : Token) (st : ParserState) :
    st.current ≤ (parseGraphicBox toks a b st).2.current :=
  (parseParameters_state toks st).1

theorem parseFontSelection_mono (toks : List Token) (a b : Token) (st : ParserState) :
    st.current ≤ (parseFontSelection toks a b st).2.current :=
  (parseParameters_state toks st).1

theorem parseGenericCommand_mono (toks : List Token) (a b : Token) (st : ParserState) :
    st.current ≤ (parseGenericCommand toks a b st).2.current :=
  (parseParameters_state toks st).1

theorem dispatchCmd_mono (toks : List Token) (a b : Token) (st : ParserState) :
    st.current ≤ (dispatchCmd toks a b st).2.current := by
  unfold dispatchCmd
  split
  · exact parseLabelStart_mono toks a b st
  · exact parseLabelEnd_mono toks a b st
  · exact parseLabelLength_mono toks a b st
  · exact parseLabelHome_mono toks a b st
  · exact parseFieldOrigin_mono toks a b st
  · exact le_rfl
  · exact parseGraphicBox_mono toks a b st
  · exact parseFieldData_mono toks a b st
  · exact parseFontSelection_mono toks a b st
  · exact le_rfl
  · exact parseBarcode_mono toks a b st
  · exact parseBarcode_mono toks a b st
  · exact parseBarcode_mono toks a b st
  · exact le_rfl
  · exact le_trans
      (le_of_eq (addWarnP_current st ("Unsupported command: " ++ b.value) b.position).symm)
      (parseGenericCommand_mono toks a b _)

theorem parseCommand_progress {toks : List Token} {st : ParserState}
    (h : isAtEndP toks st = false) :
    st.current < (parseCommand toks st).2.current := by
  unfold parseCommand
  split
  · next hcs =>
    have hadv : (advanceT toks st).2.current = st.current + 1 :=
      advanceT_current_of_not_end h
    dsimp only
    split
    · next hcc =>
      dsimp only
      have h2 : (advanceT toks (advanceT toks st).2).2.current =
          st.current + 2 := by
        rw [advanceT_current_of_not_end (checkT_not_end hcc), hadv]
      calc st.current < st.current + 2 := by omega
        _ = (advanceT toks (advanceT toks st).2).2.current := h2.symm
        _ ≤ _ := dispatchCmd_mono toks _ _ _
    · dsimp only
      rw [addErrorP_current, hadv]
      omega
  · dsimp only
    rw [advanceT_current_of_not_end h]
    omega

theorem syncLoopF_mono (fuel : Nat) (toks : List Token) (st : ParserState) :
    st.current ≤ (syncLoopF fuel toks st).current := by
  induction fuel generalizing st with
  | zero => exact le_rfl
  | succ fuel ih =>
    unfold syncLoopF
    split
    · exact le_rfl
    · split
      · exact le_rfl
      · split
        · exact le_rfl
        · exact le_trans (advanceT_mono toks st) (ih _)

theorem synchronize_mono (toks : List Token) (st : ParserState) :
    st.current ≤ (synchronize toks st).current :=
  le_trans (advanceT_mono toks st) (syncLoopF_mono _ toks _)

theorem parseIter_progress {toks : List Token} {st : ParserState}
    (h : isAtEndP toks st = false) :
    st.current < (parseIter toks st).2.current := by
  have hp := parseCommand_progress h
  unfold parseIter
  rcases hpc : parseCommand toks st with ⟨r, st1⟩
  rw [hpc] at hp
  cases r with
  | ok c => exact hp
  | error e => exact lt_of_lt_of_le hp (synchronize_mono toks st1)

/-- C1: parse terminates for every finite input and propagates no failure.
The first conjunct is the strict-progress invariant: from any cursor position
short of the end-of-stream token, one iteration of the parse loop — the
normal path as well as the caught-exception path through synchronize —
strictly advances the cursor.  The second conjunct is termination itself:
with the fuel parse actually passes (any bound exceeding the number of
remaining tokens), the loop always stops exactly at the end-of-stream token,
so parse (a total function whose only failure signal, Except.error inside
parseCommand, is consumed by parseIter) returns a complete Document for every
input. -/
theorem c1_parse_terminates :
    (∀ toks : List Token, ∀ st : ParserState, isAtEndP toks st = false →
      st.current < (parseIter toks st).2.current) ∧
    (∀ fuel : Nat, ∀ toks : List Token, ∀ st : ParserState,
      ∀ acc : List AnyZplCommand, toks.length - st.current < fuel →
      isAtEndP toks (parseLoopF fuel toks st acc).2 = true) := by
  constructor
  · exact fun toks st h => parseIter_progress h
  · intro fuel
    induction fuel with
    | zero => intro toks st acc h; omega
    | succ fuel ih =>
      intro toks st acc h
      unfold parseLoopF
      split
      · next hEnd => exact hEnd
      · next hEnd =>
        dsimp only
        apply ih
        have h1 := parseIter_progress (eq_false_of_ne_true hEnd)
        have h2 := isAtEndP_false_lt (eq_false_of_ne_true hEnd)
        omega

/-- Witness for C1 at a concrete input: on the token stream of "^XA" the
first loop iteration strictly advances the cursor, and the loop run with the
fuel parse uses ends at the end-of-stream token. -/
theorem c1_parse_terminates_witness :
    (⟨0, [], []⟩ : ParserState).current <
      (parseIter (tokenize "^XA").1 ⟨0, [], []⟩).2.current ∧
    isAtEndP (tokenize "^XA").1
      (parseLoopF 4 (tokenize "^XA").1 ⟨0, [], []⟩ []).2 = true := by
  constructor
  · exact c1_parse_terminates.1 (tokenize "^XA").1 ⟨0, [], []⟩ (by decide)
  · exact c1_parse_terminates.2 4 (tokenize "^XA").1 ⟨0, [], []⟩ [] (by decide)

/-- C8: parse is a pure function of its input text.  The embedding keeps the
ZplParser instance fields explicit, and parse overwrites all four of them
(token list, cursor, error list, warning list) before reading anything, so
the produced Document is independent of the incoming instance state — in
particular a second sequential call on the instance the first call left
behind returns a structurally identical Document. -/
theorem c8_parse_pure_idempotent :
    (∀ i1 i2 : ZplParserInst, ∀ s : String, parseInst i1 s = parseInst i2 s) ∧
    (∀ i : ZplParserInst, ∀ s : String,
      (parseInst (parseInst i s).2 s).1 = (parseInst i s).1) :=
  ⟨fun _ _ _ => rfl, fun _ _ => rfl⟩

/-- C2 (evaluation of the code at the claim's inputs): the tokenizer's
isCommandChar accepts every uppercase letter and digit and tokenizeCommand
takes the maximal run, so the command code lexed from "^FDHello World^FS" is
"FDH", not "FD".  The parser therefore emits a generic FDH node (with
parameters "ello"/"World") plus a separate generic FS node — no field-data
node, no content "Hello World", no stopCommand — contradicting the claim and
the repository's own test expectations. -/
theorem c2_fd_greedy_code_eval :
    (parse "^FDHello World^FS").commands =
      [AnyZplCommand.generic "FDH" "^FDH" ⟨1, 1, 0⟩ ["ello", "World"],
       AnyZplCommand.generic "FS" "^FS" ⟨1, 15, 14⟩ []] ∧
    (parse "^FDHello World").commands =
      [AnyZplCommand.generic "FDH" "^FDH" ⟨1, 1, 0⟩ ["ello", "World"]] := by
  decide

/-- C3 (evaluation of the code at Scenario A): the five-line Scenario A input
parses to 6 command nodes, not 5 — FO50, ADN, FDH and FS all lex as maximal
command-code runs and dispatch as generic nodes — and node 3 is a generic FDH
node rather than a field-data node; the error list is indeed empty.  This
contradicts the claim and the repository's own test. -/
theorem c3_scenario_a_code_eval :
    (parse "^XA\n^FO50,50\n^ADN,36,20\n^FDHello World^FS\n^XZ").errors = [] ∧
    (parse "^XA\n^FO50,50\n^ADN,36,20\n^FDHello World^FS\n^XZ").commands.length = 6 ∧
    (parse "^XA\n^FO50,50\n^ADN,36,20\n^FDHello World^FS\n^XZ").commands.get? 0 =
      some (AnyZplCommand.labelStart "^XA" ⟨1, 1, 0⟩ []) ∧
    (parse "^XA\n^FO50,50\n^ADN,36,20\n^FDHello World^FS\n^XZ").commands.get? 3 =
      some (AnyZplCommand.generic "FDH" "^FDH" ⟨4, 1, 24⟩ ["ello", "World"]) := by
  decide

/-- C4 (evaluation of the code at Scenario B): "^BCN,100,Y,N,N" lexes with
command code "BCN" and "^FD123456789" with command code "FD123456789", so the
document contains no barcode node at all — every middle line becomes a
generic node — contradicting the claim and the repository's own test. -/
theorem c4_scenario_b_code_eval :
    (parse "^XA\n^FO100,100\n^BCN,100,Y,N,N\n^FD123456789^FS\n^XZ").commands =
      [AnyZplCommand.labelStart "^XA" ⟨1, 1, 0⟩ [],
       AnyZplCommand.generic "FO100" "^FO100" ⟨2, 1, 4⟩ ["100"],
       AnyZplCommand.generic "BCN" "^BCN" ⟨3, 1, 15⟩ ["100", "Y", "N", "N"],
       AnyZplCommand.generic "FD123456789" "^FD123456789" ⟨4, 1, 30⟩ [],
       AnyZplCommand.generic "FS" "^FS" ⟨4, 13, 42⟩ [],
       AnyZplCommand.labelEnd "^XZ" ⟨5, 1, 46⟩] := by
  decide

/-- C5 (evaluation of the code at Scenario C): "^FO50" lexes with command
code "FO50" and never reaches parseFieldOrigin, so no missing-parameter error
is recorded (the error list is empty, against the claimed "at least one") and
5 command nodes are produced, not 4. -/
theorem c5_scenario_c_code_eval :
    (parse "^XA\n^FO50\n^FDTest^FS\n^XZ").errors = [] ∧
    (parse "^XA\n^FO50\n^FDTest^FS\n^XZ").commands.length = 5 := by
  decide

/-- C6: parsing "^LH" alone yields a label-home node with x = 0 and y = 0 and
one recorded structural error; and in general, whenever the LH (or FO)
grammar rule runs with fewer than two parameters, it appends exactly one
structural error and still emits its node, with each coordinate computed by
parseNumberParameter with default 0 — which returns 0 whenever the parameter
is missing or fails integer parsing. -/
theorem c6_lh_defaults :
    ((parse "^LH").commands = [AnyZplCommand.labelHome "^LH" ⟨1, 1, 0⟩ 0 0 []] ∧
      1 ≤ (parse "^LH").errors.length) ∧
    (∀ toks : List Token, ∀ startTok cTok : Token, ∀ st : ParserState,
      (parseParameters toks st).1.length < 2 →
      (parseLabelHome toks startTok cTok st).2.errors =
        st.errors ++ [⟨"LH command requires x and y parameters",
          startTok.position, "ERROR", "PARSER_ERROR"⟩] ∧
      (parseLabelHome toks startTok cTok st).1 =
        AnyZplCommand.labelHome ("^" ++ cTok.value) startTok.position
          (parseNumberParameter ((parseParameters toks st).1.get? 0) 0)
          (parseNumberParameter ((parseParameters toks st).1.get? 1) 0)
          (parseParameters toks st).1) ∧
    (∀ toks : List Token, ∀ startTok cTok : Token, ∀ st : ParserState,
      (parseParameters toks st).1.length < 2 →
      (parseFieldOrigin toks startTok cTok st).2.errors =
        st.errors ++ [⟨"FO command requires x and y parameters",
          startTok.position, "ERROR", "PARSER_ERROR"⟩] ∧
      (parseFieldOrigin toks startTok cTok st).1 =
        AnyZplCommand.fieldOrigin ("^" ++ cTok.value) startTok.position
          (parseNumberParameter ((parseParameters toks st).1.get? 0) 0)
          (parseNumberParameter ((parseParameters toks st).1.get? 1) 0)
          (parseParameters toks st).1) ∧
    (parseNumberParameter none 0 = 0 ∧
      ∀ s : String, parseIntJS s = none → parseNumberParameter (some s) 0 = 0) := by
  refine ⟨⟨by decide, by decide⟩, ?_, ?_, rfl, ?_⟩
  · intro toks startTok cTok st h
    unfold parseLabelHome
    dsimp only
    rw [if_pos h]
    refine ⟨?_, rfl⟩
    unfold addErrorP
    rw [(parseParameters_state toks st).2.1]
  · intro toks startTok cTok st h
    unfold parseFieldOrigin
    dsimp only
    rw [if_pos h]
    refine ⟨?_, rfl⟩
    unfold addErrorP
    rw [(parseParameters_state toks st).2.1]
  · intro s h
    simp [parseNumberParameter, h]

/-- Witness for C6 at concrete inputs: the general missing-parameter parts
applied on the token stream of "^LH" with the cursor past the marker and code
tokens, and the non-numeric default applied to "abc". -/
theorem c6_lh_defaults_witness :
    (parseLabelHome (tokenize "^LH").1
        ⟨TokenType.COMMAND_START, "^", ⟨1, 1, 0⟩, "^"⟩
        ⟨TokenType.COMMAND_CODE, "LH", ⟨1, 2, 0⟩, "LH"⟩
        ⟨2, [], []⟩).2.errors =
      [] ++ [⟨"LH command requires x and y parameters", ⟨1, 1, 0⟩,
        "ERROR", "PARSER_ERROR"⟩] ∧
    (parseFieldOrigin (tokenize "^LH").1
        ⟨TokenType.COMMAND_START, "^", ⟨1, 1, 0⟩, "^"⟩
        ⟨TokenType.COMMAND_CODE, "FO", ⟨1, 2, 0⟩, "FO"⟩
        ⟨2, [], []⟩).2.errors =
      [] ++ [⟨"FO command requires x and y parameters", ⟨1, 1, 0⟩,
        "ERROR", "PARSER_ERROR"⟩] ∧
    parseNumberParameter (some "abc") 0 = 0 := by
  refine ⟨?_, ?_, ?_⟩
  · exact (c6_lh_defaults.2.1 (tokenize "^LH").1 _ _ ⟨2, [], []⟩ (by decide)).1
  · exact (c6_lh_defaults.2.2.1 (tokenize "^LH").1 _ _ ⟨2, [], []⟩ (by decide)).1
  · exact c6_lh_defaults.2.2.2.2 "abc" (by decide)

/-- C7 counterexample: the claim says FR goes through the generic-command
fallback with an unsupported-command warning, but parsing "^FR" (and "^CF",
"^GF") produces the empty stub node the dispatch's dedicated stub rules
return, and no warning at all. -/
theorem c7_stub_counterexample :
    (parse "^FR").commands = [AnyZplCommand.stub] ∧
    (parse "^FR").warnings = [] ∧
    (parse "^CF").commands = [AnyZplCommand.stub] ∧
    (parse "^CF").warnings = [] ∧
    (parse "^GF").commands = [AnyZplCommand.stub] ∧
    (parse "^GF").warnings = [] := by
  decide

/-- C7 amended: for every command whose code is exactly FR, CF or GF, the
dispatcher invokes the corresponding stub rule, which returns the empty
placeholder node — none of the shared base fields — consumes no parameter
tokens and records neither a warning nor an error; the generic fallback with
its unsupported-command warning is reached only by codes absent from the
dispatch table. -/
theorem c7_stub_amended :
    ∀ toks : List Token, ∀ startTok cTok : Token, ∀ st : ParserState,
    cTok.value = "FR" ∨ cTok.value = "CF" ∨ cTok.value = "GF" →
    dispatchCmd toks startTok cTok st = (AnyZplCommand.stub, st) := by
  intro toks startTok cTok st h
  unfold dispatchCmd
  rcases h with h | h | h <;> rw [h] <;> rfl

/-- Witness for C7's amended statement at a concrete input. -/
theorem c7_stub_amended_witness :
    dispatchCmd [] eofFallbackToken
      ⟨TokenType.COMMAND_CODE, "CF", ⟨1, 2, 0⟩, "CF"⟩ ⟨0, [], []⟩ =
      (AnyZplCommand.stub, ⟨0, [], []⟩) :=
  c7_stub_amended [] eofFallbackToken
    ⟨TokenType.COMMAND_CODE, "CF", ⟨1, 2, 0⟩, "CF"⟩ ⟨0, [], []⟩
    (Or.inr (Or.inl rfl))

/-! Tokenizer invariants: each scanning step appends a well-shaped block of
tokens (TokChunk), hence the full stream is offset-monotone, holds no
end-of-stream token before the single appended one, and pairs every
command-marker token with an immediately following command-code token. -/

theorem csPaired_append : ∀ {a b : List Token},
    csPaired a → csPaired b → csPaired (a ++ b)
  | [], _, _, hb => hb
  | [t], b, ht, hb => by
    cases b with
    | nil => exact ht
    | cons u rest => exact ⟨fun h => absurd h ht, hb⟩
  | _ :: _ :: _, _, ha, hb => ⟨ha.1, csPaired_append ha.2 hb⟩

theorem csPaired_get : ∀ {l : List Token}, csPaired l → ∀ i : Nat, ∀ t : Token,
    l.get? i = some t → t.type = TokenType.COMMAND_START →
    ∃ u : Token, l.get? (i + 1) = some u ∧ u.type = TokenType.COMMAND_CODE
  | [], _, i, t, h, _ => by simp at h
  | [t0], h1, i, t, h, hcs => by
    cases i with
    | zero =>
      have ht : t0 = t := by simpa using h
      subst ht
      exact absurd hcs h1
    | succ n => simp at h
  | t0 :: u0 :: rest, hp, i, t, h, hcs => by
    cases i with
    | zero =>
      have ht : t0 = t := by simpa using h
      subst ht
      exact ⟨u0, rfl, hp.1 hcs⟩
    | succ n => exact csPaired_get hp.2 n t h hcs

theorem TokChunk.same {st st' : TokState} (htok : st'.tokens = st.tokens)
    (hoff : st.offset ≤ st'.offset) : TokChunk st st' [] := by
  refine ⟨by rw [htok, List.append_nil], hoff, by simp, by simp, trivial⟩

theorem TokChunk.comp {st1 st2 st3 : TokState} {n1 n2 : List Token}
    (h1 : TokChunk st1 st2 n1) (h2 : TokChunk st2 st3 n2) :
    TokChunk st1 st3 (n1 ++ n2) := by
  obtain ⟨ha1, ho1, hc1, hb1, hp1⟩ := h1
  obtain ⟨ha2, ho2, hc2, hb2, hp2⟩ := h2
  refine ⟨by rw [ha2, ha1, List.append_assoc], le_trans ho1 ho2, ?_, ?_,
    csPaired_append hp1 hp2⟩
  · rw [List.chain'_append]
    refine ⟨hc1, hc2, ?_⟩
    intro x hx y hy
    have hxm : x ∈ n1 := List.mem_of_getLast?_eq_some (Option.mem_def.mp hx)
    have hym : y ∈ n2 := List.mem_of_mem_head? hy
    exact le_trans (hb1 x hxm).2.1 (hb2 y hym).1
  · intro t ht
    rcases List.mem_append.mp ht with h | h
    · exact ⟨(hb1 t h).1, le_trans (hb1 t h).2.1 ho2, (hb1 t h).2.2⟩
    · exact ⟨le_trans ho1 (hb2 t h).1, (hb2 t h).2.1, (hb2 t h).2.2⟩

theorem TokChunk.push_single {st st1 : TokState} {t : Token}
    (htok : st1.tokens = st.tokens) (hoff : st.offset ≤ st1.offset)
    (hlb : st.offset ≤ t.position.offset) (hub : t.position.offset ≤ st1.offset)
    (hty : t.type ≠ TokenType.EOF) (hcs : t.type ≠ TokenType.COMMAND_START) :
    TokChunk st (pushTok st1 t) [t] := by
  refine ⟨?_, ?_, by simp, ?_, hcs⟩
  · show st1.tokens ++ [t] = st.tokens ++ [t]
    rw [htok]
  · exact hoff
  · intro u hu
    rcases List.mem_singleton.mp hu with rfl
    exact ⟨hlb, hub, hty⟩

theorem tokAdvance_tokens (st : TokState) : (tokAdvance st).tokens = st.tokens := rfl

theorem tokAdvance_le (st : TokState) : st.offset ≤ (tokAdvance st).offset :=
  Nat.le_succ st.offset

theorem tokAdvance2_le (st : TokState) :
    st.offset ≤ (tokAdvance (tokAdvance st)).offset :=
  le_trans (tokAdvance_le st) (tokAdvance_le (tokAdvance st))

theorem scanCommandCode_state : ∀ l : List Char, ∀ st : TokState,
    (scanCommandCode l st).2.2.tokens = st.tokens ∧
    st.offset ≤ (scanCommandCode l st).2.2.offset
  | [], st => ⟨rfl, le_rfl⟩
  | c :: rest, st => by
    unfold scanCommandCode
    split
    · dsimp only
      refine ⟨(scanCommandCode_state rest (tokAdvance st)).1, ?_⟩
      exact le_trans (tokAdvance_le st) (scanCommandCode_state rest (tokAdvance st)).2
    · exact ⟨rfl, le_rfl⟩

theorem scanParam_state : ∀ l : List Char, ∀ st : TokState,
    (scanParam l st).2.2.tokens = st.tokens ∧
    st.offset ≤ (scanParam l st).2.2.offset
  | [], st => ⟨rfl, le_rfl⟩
  | c :: rest, st => by
    unfold scanParam
    split
    · exact ⟨rfl, le_rfl⟩
    · dsimp only
      refine ⟨(scanParam_state rest (tokAdvance st)).1, ?_⟩
      exact le_trans (tokAdvance_le st) (scanParam_state rest (tokAdvance st)).2

theorem scanLineComment_state : ∀ l : List Char, ∀ st : TokState,
    (scanLineComment l st).2.2.tokens = st.tokens ∧
    st.offset ≤ (scanLineComment l st).2.2.offset
  | [], st => ⟨rfl, le_rfl⟩
  | c :: rest, st => by
    unfold scanLineComment
    split
    · exact ⟨rfl, le_rfl⟩
    · dsimp only
      refine ⟨(scanLineComment_state rest (tokAdvance st)).1, ?_⟩
      exact le_trans (tokAdvance_le st) (scanLineComment_state rest (tokAdvance st)).2

theorem scanBlockComment_state : ∀ l : List Char, ∀ st : TokState,
    (scanBlockComment l st).2.2.tokens = st.tokens ∧
    st.offset ≤ (scanBlockComment l st).2.2.offset
  | [], st => ⟨rfl, le_rfl⟩
  | [c], st => ⟨rfl, le_rfl⟩
  | c1 :: c2 :: rest, st => by
    unfold scanBlockComment
    split
    · dsimp only
      exact ⟨rfl, tokAdvance2_le st⟩
    · dsimp only
      refine ⟨(scanBlockComment_state (c2 :: rest) (tokAdvance st)).1, ?_⟩
      exact le_trans (tokAdvance_le st)
        (scanBlockComment_state (c2 :: rest) (tokAdvance st)).2

theorem tokenizeParametersF_chunk : ∀ fuel : Nat, ∀ l : List Char, ∀ st : TokState,
    ∃ new, TokChunk st (tokenizeParametersF fuel l st).2 new := by
  intro fuel
  induction fuel with
  | zero => exact fun l st => ⟨[], TokChunk.same rfl le_rfl⟩
  | succ fuel ih =>
    intro l st
    match l with
    | [] => exact ⟨[], TokChunk.same rfl le_rfl⟩
    | c :: rest =>
      unfold tokenizeParametersF
      split
      · exact ⟨[], TokChunk.same rfl le_rfl⟩
      · split
        · obtain ⟨new, hnew⟩ := ih rest (tokAdvance st)
          exact ⟨[] ++ new,
            TokChunk.comp (TokChunk.same (tokAdvance_tokens st) (tokAdvance_le st)) hnew⟩
        · split
          · obtain ⟨new, hnew⟩ := ih rest (tokAdvance st)
            exact ⟨[] ++ new,
              TokChunk.comp (TokChunk.same (tokAdvance_tokens st) (tokAdvance_le st)) hnew⟩
          · dsimp only
            obtain ⟨new, hnew⟩ := ih (scanParam rest (tokAdvance st)).2.1
              (pushTok (scanParam rest (tokAdvance st)).2.2
                ⟨TokenType.PARAMETER, ⟨c :: (scanParam rest (tokAdvance st)).1.data⟩,
                  tokPos st, ⟨c :: (scanParam rest (tokAdvance st)).1.data⟩⟩)
            refine ⟨_ ++ new, TokChunk.comp (TokChunk.push_single ?_ ?_ ?_ ?_ ?_ ?_) hnew⟩
            · exact (scanParam_state rest (tokAdvance st)).1
            · exact le_trans (tokAdvance_le st) (scanParam_state rest (tokAdvance st)).2
            · exact le_rfl
            · exact le_trans (tokAdvance_le st) (scanParam_state rest (tokAdvance st)).2
            · exact fun h => nomatch h
            · exact fun h => nomatch h

theorem tokenizeCommand_chunk (l : List Char) (st : TokState) :
    ∃ new, TokChunk st (tokenizeCommand l st).2 new := by
  unfold tokenizeCommand
  dsimp only
  split
  · obtain ⟨new, hnew⟩ := tokenizeParametersF_chunk
      ((scanCommandCode l (tokAdvance st)).2.1.length + 1)
      (scanCommandCode l (tokAdvance st)).2.1
      (pushTok
        (pushTok (scanCommandCode l (tokAdvance st)).2.2
          ⟨TokenType.COMMAND_START, "^", tokPos st, "^"⟩)
        ⟨TokenType.COMMAND_CODE, (scanCommandCode l (tokAdvance st)).1,
          ⟨(tokPos st).line, (tokPos st).column + 1, (tokPos st).offset⟩,
          (scanCommandCode l (tokAdvance st)).1⟩)
    refine ⟨_ ++ new, TokChunk.comp (?_ :
      TokChunk st _ [⟨TokenType.COMMAND_START, "^", tokPos st, "^"⟩,
        ⟨TokenType.COMMAND_CODE, (scanCommandCode l (tokAdvance st)).1,
          ⟨(tokPos st).line, (tokPos st).column + 1, (tokPos st).offset⟩,
          (scanCommandCode l (tokAdvance st)).1⟩]) hnew⟩
    have hso := scanCommandCode_state l (tokAdvance st)
    have hmono : st.offset ≤ (scanCommandCode l (tokAdvance st)).2.2.offset :=
      le_trans (tokAdvance_le st) hso.2
    refine ⟨?_, hmono, ?_, ?_, ?_⟩
    · show (pushTok _ _).tokens ++ _ = _
      unfold pushTok
      rw [hso.1, tokAdvance_tokens]
      simp [tokPos]
    · simp [tokPos]
    · intro t ht
      rcases List.mem_cons.mp ht with rfl | ht
      · exact ⟨le_rfl, hmono, fun h => nomatch h⟩
      · rcases List.mem_singleton.mp ht with rfl
        exact ⟨le_rfl, hmono, fun h => nomatch h⟩
    · exact ⟨fun _ => rfl, fun h => nomatch h⟩
  · exact ⟨[], TokChunk.same
      (scanCommandCode_state l (tokAdvance st)).1
      (le_trans (tokAdvance_le st) (scanCommandCode_state l (tokAdvance st)).2)⟩

theorem tokenizeNewline_chunk (st : TokState) :
    TokChunk st (tokenizeNewline st)
      [⟨TokenType.NEWLINE, "\n", tokPos st, "\n"⟩] := by
  refine ⟨rfl, ?_, by simp, ?_, fun h => nomatch h⟩
  · show st.offset ≤ st.offset + 1
    omega
  · intro t ht
    rcases List.mem_singleton.mp ht with rfl
    refine ⟨le_rfl, ?_, fun h => nomatch h⟩
    show st.offset ≤ st.offset + 1
    omega

theorem tokenizeLineComment_chunk (l : List Char) (st : TokState) :
    ∃ new, TokChunk st (tokenizeLineComment l st).2 new := by
  unfold tokenizeLineComment
  dsimp only
  have hsc := scanLineComment_state (l.drop 2) (tokAdvance (tokAdvance st))
  have hmono : st.offset ≤
      (scanLineComment (l.drop 2) (tokAdvance (tokAdvance st))).2.2.offset :=
    le_trans (tokAdvance2_le st) hsc.2
  exact ⟨_, TokChunk.push_single hsc.1 hmono le_rfl hmono
    (fun h => nomatch h) (fun h => nomatch h)⟩

theorem tokenizeBlockComment_chunk (l : List Char) (st : TokState) :
    ∃ new, TokChunk st (tokenizeBlockComment l st).2 new := by
  unfold tokenizeBlockComment
  dsimp only
  have hsc := scanBlockComment_state (l.drop 2) (tokAdvance (tokAdvance st))
  have hmono : st.offset ≤
      (scanBlockComment (l.drop 2) (tokAdvance (tokAdvance st))).2.2.offset :=
    le_trans (tokAdvance2_le st) hsc.2
  exact ⟨_, TokChunk.push_single hsc.1 hmono le_rfl hmono
    (fun h => nomatch h) (fun h => nomatch h)⟩

theorem tokLoopF_chunk : ∀ fuel : Nat, ∀ l : List Char, ∀ st : TokState,
    ∃ new, TokChunk st (tokLoopF fuel l st) new := by
  intro fuel
  induction fuel with
  | zero => exact fun l st => ⟨[], TokChunk.same rfl le_rfl⟩
  | succ fuel ih =>
    intro l st
    match l with
    | [] => exact ⟨[], TokChunk.same rfl le_rfl⟩
    | c :: rest =>
      unfold tokLoopF
      split
      · obtain ⟨n1, h1⟩ := tokenizeCommand_chunk rest st
        obtain ⟨n2, h2⟩ := ih (tokenizeCommand rest st).1 (tokenizeCommand rest st).2
        exact ⟨n1 ++ n2, TokChunk.comp h1 h2⟩
      · split
        · obtain ⟨n2, h2⟩ := ih rest (tokenizeNewline st)
          exact ⟨_ ++ n2, TokChunk.comp (tokenizeNewline_chunk st) h2⟩
        · split
          · obtain ⟨n1, h1⟩ := tokenizeLineComment_chunk (c :: rest) st
            obtain ⟨n2, h2⟩ := ih (tokenizeLineComment (c :: rest) st).1
              (tokenizeLineComment (c :: rest) st).2
            exact ⟨n1 ++ n2, TokChunk.comp h1 h2⟩
          · split
            · obtain ⟨n1, h1⟩ := tokenizeBlockComment_chunk (c :: rest) st
              obtain ⟨n2, h2⟩ := ih (tokenizeBlockComment (c :: rest) st).1
                (tokenizeBlockComment (c :: rest) st).2
              exact ⟨n1 ++ n2, TokChunk.comp h1 h2⟩
            · split
              · obtain ⟨n2, h2⟩ := ih rest (tokAdvance st)
                exact ⟨[] ++ n2,
                  TokChunk.comp (TokChunk.same (tokAdvance_tokens st) (tokAdvance_le st)) h2⟩
              · obtain ⟨n2, h2⟩ := ih rest
                  (tokAdvance (pushTokErr st ("Unexpected character: " ++ ⟨[c]⟩)))
                have hsame : TokChunk st
                    (tokAdvance (pushTokErr st ("Unexpected character: " ++ ⟨[c]⟩))) [] :=
                  TokChunk.same rfl (Nat.le_succ st.offset)
                exact ⟨[] ++ n2, TokChunk.comp hsame h2⟩

/-- The shape of every tokenize result: a body block satisfying all chunk
invariants followed by the single appended end-of-stream token. -/
theorem tokenize_shape (s : String) :
    ∃ body : List Token, ∃ eofTok : Token,
      (tokenize s).1 = body ++ [eofTok] ∧
      eofTok.type = TokenType.EOF ∧
      List.Chain' (fun a b => a.position.offset ≤ b.position.offset) body ∧
      (∀ t ∈ body, t.position.offset ≤ eofTok.position.offset ∧
        t.type ≠ TokenType.EOF) ∧
      csPaired body := by
  obtain ⟨new, happ, hoff, hchain, hb, hp⟩ :=
    tokLoopF_chunk (s.data.length + 1) s.data ⟨1, 1, 0, [], []⟩
  refine ⟨new,
    ⟨TokenType.EOF, "EOF",
      tokPos (tokLoopF (s.data.length + 1) s.data ⟨1, 1, 0, [], []⟩), ""⟩,
    ?_, rfl, hchain, ?_, hp⟩
  · show (tokLoopF (s.data.length + 1) s.data ⟨1, 1, 0, [], []⟩).tokens ++ _ =
      new ++ _
    rw [happ]
    rfl
  · intro t ht
    exact ⟨(hb t ht).2.1, (hb t ht).2.2⟩

/-- C9: for every input, the token stream tokenize returns is offset-monotone
(each token's offset is at least the previous token's offset), holds exactly
one end-of-stream token, and that token is its last element. -/
theorem c9_stream_monotone_single_eof :
    ∀ s : String,
      List.Chain' (fun a b => a.position.offset ≤ b.position.offset)
        (tokenize s).1 ∧
      (tokenize s).1.countP (fun t => t.type == TokenType.EOF) = 1 ∧
      ∃ t : Token, (tokenize s).1.getLast? = some t ∧
        t.type = TokenType.EOF := by
  intro s
  obtain ⟨body, eofTok, happ, hty, hchain, hb, hp⟩ := tokenize_shape s
  rw [happ]
  refine ⟨?_, ?_, ?_⟩
  · rw [List.chain'_append]
    refine ⟨hchain, by simp, ?_⟩
    intro x hx y hy
    have hxm := List.mem_of_getLast?_eq_some (Option.mem_def.mp hx)
    have hye : eofTok = y := by simpa using Option.mem_def.mp hy
    subst hye
    exact (hb x hxm).1
  · rw [List.countP_append]
    have h0 : body.countP (fun t => t.type == TokenType.EOF) = 0 :=
      List.countP_eq_zero.mpr
        (fun a ha hpa => (hb a ha).2 (by simpa using hpa))
    rw [h0]
    simp [List.countP_cons, hty]
  · exact ⟨eofTok, List.getLast?_concat body, hty⟩

/-- Every tokenize stream is csPaired (including its end-of-stream token,
which is not a command marker). -/
theorem tokenize_csPaired (s : String) : csPaired (tokenize s).1 := by
  obtain ⟨body, eofTok, happ, hty, _, _, hp⟩ := tokenize_shape s
  rw [happ]
  refine csPaired_append hp ?_
  show eofTok.type ≠ TokenType.COMMAND_START
  intro hh
  rw [hty] at hh
  exact nomatch hh

/-- In every tokenize stream, a command-marker token is immediately followed
by a command-code token. -/
theorem tokenize_cs_next (s : String) (i : Nat) (t : Token)
    (h : (tokenize s).1.get? i = some t)
    (hcs : t.type = TokenType.COMMAND_START) :
    ∃ u : Token, (tokenize s).1.get? (i + 1) = some u ∧
      u.type = TokenType.COMMAND_CODE :=
  csPaired_get (tokenize_csPaired s) i t h hcs

/-- A successful check pins down the token under the cursor. -/
theorem checkT_peek {toks : List Token} {st : ParserState} {ty : TokenType}
    (h : checkT toks st ty = true) :
    toks.get? st.current = some (peekT toks st) ∧ (peekT toks st).type = ty := by
  have hend := checkT_not_end h
  have hlt := isAtEndP_false_lt hend
  constructor
  · cases hg : toks.get? st.current with
    | none =>
      have := List.get?_eq_none.mp hg
      omega
    | some x =>
      have hx : peekT toks st = x := by
        unfold peekT List.getD
        rw [hg]
        rfl
      rw [hx]
  · unfold checkT at h
    rw [hend] at h
    simpa using h

/-- C10: in every token stream tokenize produces, each COMMAND_START token is
immediately followed by a COMMAND_CODE token — a marker with no following
command-code character emits no tokens at all, only a lexical error (third
and fourth conjuncts, evaluated on "^") — and consequently parseCommand's
consume of the command code can never fail on such a stream: whenever the
cursor rests on a COMMAND_START token, parseCommand returns Except.ok, so
the "Expected command code after ^" error path is unreachable. -/
theorem c10_marker_always_paired :
    (∀ s : String, ∀ i : Nat, ∀ t : Token,
      (tokenize s).1.get? i = some t → t.type = TokenType.COMMAND_START →
      ∃ u : Token, (tokenize s).1.get? (i + 1) = some u ∧
        u.type = TokenType.COMMAND_CODE) ∧
    (∀ s : String, ∀ st : ParserState,
      checkT (tokenize s).1 st TokenType.COMMAND_START = true →
      ∃ c, ∃ st' : ParserState,
        parseCommand (tokenize s).1 st = (Except.ok c, st')) ∧
    (tokenize "^").1 = [⟨TokenType.EOF, "EOF", ⟨1, 2, 1⟩, ""⟩] ∧
    (tokenize "^").2 =
      [⟨"Empty command after ^", ⟨1, 2, 1⟩, "ERROR", "TOKENIZER_ERROR"⟩] := by
  refine ⟨fun s i t h hcs => tokenize_cs_next s i t h hcs, ?_, by decide, by decide⟩
  intro s st h
  obtain ⟨hg, hty⟩ := checkT_peek h
  obtain ⟨u, hu, hut⟩ :=
    tokenize_cs_next s st.current (peekT (tokenize s).1 st) hg hty
  have hm2 : (advanceT (tokenize s).1 st).2.current = st.current + 1 :=
    advanceT_current_of_not_end (checkT_not_end h)
  have hpeek : peekT (tokenize s).1 (advanceT (tokenize s).1 st).2 = u := by
    unfold peekT List.getD
    rw [hm2, hu]
    rfl
  have hend2 : isAtEndP (tokenize s).1 (advanceT (tokenize s).1 st).2 = false := by
    unfold isAtEndP
    rw [hpeek, hut]
    rfl
  have hcc : checkT (tokenize s).1 (advanceT (tokenize s).1 st).2
      TokenType.COMMAND_CODE = true := by
    unfold checkT
    rw [hend2, hpeek, hut]
    rfl
  unfold parseCommand
  rw [h]
  dsimp only
  rw [hcc]
  exact ⟨_, _, rfl⟩

/-- Witness for C10 at a concrete input: applied to the stream of "^XA". -/
theorem c10_marker_always_paired_witness :
    (∃ u : Token, (tokenize "^XA").1.get? 1 = some u ∧
      u.type = TokenType.COMMAND_CODE) ∧
    (∃ c, ∃ st' : ParserState,
      parseCommand (tokenize "^XA").1 ⟨0, [], []⟩ = (Except.ok c, st')) := by
  constructor
  · exact c10_marker_always_paired.1 "^XA" 0
      ⟨TokenType.COMMAND_START, "^", ⟨1, 1, 0⟩, "^"⟩ (by decide) rfl
  · exact c10_marker_always_paired.2.1 "^XA" ⟨0, [], []⟩ (by decide)

end ZombieZpl
